import Mathlib

/-!
Shallow embedding of `aws-logs-tui` (Rust) and proofs about its spec claims.

Source files embedded:
- `src/aws/lambda.rs`: the pagination aggregator `Client::get_all_functions`.
- `src/main.rs`: the CLI startup report, the selection state machine
  (`App::handle_key`, `App::select_*`), and the render projection
  (`render_list`, `render_selected_item`, header/footer).

The AWS network client, terminal, and the ratatui widget library are external
collaborators.  The page-by-page behaviour of the listing API is modelled as an
explicit list of page responses consumed in order; a `.expect(..)` panic is
modelled as a distinguished abort outcome.  The selection semantics of
ratatui's `ListState` (whose code is not part of this repository) are modelled
from the spec's transition table where noted.
-/

namespace AwsLogsTui

/-! ## Embedding of `src/aws/lambda.rs` -/

/-- Embedding of `struct Function { name: String }`.  The derived Rust `Ord`
orders by `name` with byte-wise ordinal comparison, which coincides in order
with the lexicographic order on the string's character list. -/
structure Function where
  name : String
deriving DecidableEq, Repr

/-- Embedding of `const PAGINATION_SIZE: i32 = 50`. -/
def PAGINATION_SIZE : Nat := 50

/-- One page response body of the `ListFunctions` API: the entries (each with
an optional `function_name`, mirroring `FunctionConfiguration.function_name:
Option<String>`) and the optional continuation token `next_marker`. -/
structure Page where
  functions : List (Option String)
  next_marker : Option String
deriving DecidableEq, Repr

/-- The outcome of one `list_functions ... send()` request: a successful page,
or a transport/auth failure (`Err` from the SDK, hit by the `.expect`). -/
inductive PageResponse where
  | ok (page : Page)
  | err
deriving Repr

/-- Result of running `get_all_functions` against a finite sequence of page
responses.  `panicked` models the `.expect("Failed to list lambda functions")`
panic: the process aborts with a diagnostic on stderr and a non-zero exit code,
producing no value.  `outOfResponses` marks that the modelled response
sequence was exhausted while the loop was still awaiting another page (the
loop would keep iterating on a real unbounded token chain). -/
inductive FetchResult where
  | ok (functions : List Function)
  | panicked
  | outOfResponses
deriving DecidableEq, Repr

/-- The named entries of one page, in page order: the body of
`for function in functions { if let Some(name) = &function.function_name
{ function_names.push(Function::new(&name.clone())) } }`. -/
def page_functions (p : Page) : List Function :=
  p.functions.filterMap (fun n => n.map Function.mk)

/-- The comparison used by `function_names.sort()`: the derived `Ord` on
`Function` compares the `name` strings byte-wise (ordinal, case-sensitive),
which is the lexicographic order on their character lists. -/
def function_le (a b : Function) : Bool :=
  decide (a.name.data ≤ b.name.data)

/-- The retrieval loop of `Client::get_all_functions` (`src/aws/lambda.rs`
lines 73-96), run against an explicit sequence of page responses: request a
page; on failure panic (`.expect`); on success append the page's named entries
to the accumulator; stop exactly when `next_marker` is absent. -/
def get_all_functions_loop : List PageResponse → List Function → FetchResult
  | [], _ => .outOfResponses
  | .err :: _, _ => .panicked
  | .ok p :: rest, acc =>
    match p.next_marker with
    | none => .ok (acc ++ page_functions p)
    | some _ => get_all_functions_loop rest (acc ++ page_functions p)

/-- Embedding of `Client::get_all_functions`: run the retrieval loop, then
`function_names.sort()` (Rust's stable sort under the derived `Ord`, here
`List.mergeSort` under `function_le`). -/
def get_all_functions (responses : List PageResponse) : FetchResult :=
  match get_all_functions_loop responses [] with
  | .ok fns => .ok (fns.mergeSort function_le)
  | r => r

/-! ## Embedding of `src/main.rs` -/

/-- The part of ratatui's `ListState` the program uses: the selected index. -/
structure ListState where
  selected : Option Nat
deriving DecidableEq, Repr

/-- Embedding of `struct FunctionList { functions: Option<Vec<Function>>,
state: ListState }`. -/
structure FunctionList where
  functions : Option (List Function)
  state : ListState
deriving DecidableEq, Repr

/-- Embedding of `struct App { function_list: FunctionList, should_exit:
bool }`. -/
structure App where
  function_list : FunctionList
  should_exit : Bool
deriving DecidableEq, Repr

/-- The catalog length N the spec's transition table refers to (the length of
the loaded function list; an absent list behaves as empty). -/
def App.catalog_len (a : App) : Nat :=
  (a.function_list.functions.getD []).length

/-- The navigation transitions of the Selection State Machine, one step. -/
inductive NavInput where
  | deselect
  | next
  | previous
  | first
  | last
deriving DecidableEq, Repr

/-- Modelled from the spec: the selection transitions of ratatui's
`ListState` (`select`, `select_next`, `select_previous`, `select_first`,
`select_last` combined with the widget's render-time clamping), whose code is
external to this repository; `src/main.rs` only delegates to it.  The spec's
transition table (§4.2): deselect always yields `None`; with N = 0 every
transition yields `None`; otherwise next maps `None` to `0` and `i` to
`min(i+1, N-1)`, previous maps `None` to `N-1` and `i` to `max(i-1, 0)`,
first yields `0` and last yields `N-1`. -/
def navStep (N : Nat) (cursor : Option Nat) : NavInput → Option Nat
  | .deselect => none
  | .next =>
    if N = 0 then none
    else
      match cursor with
      | none => some 0
      | some i => some (min (i + 1) (N - 1))
  | .previous =>
    if N = 0 then none
    else
      match cursor with
      | none => some (N - 1)
      | some i => some (i - 1)
  | .first => if N = 0 then none else some 0
  | .last => if N = 0 then none else some (N - 1)

/-- Iterate navigation transitions from a starting cursor. -/
def navRun (N : Nat) (cursor : Option Nat) (inputs : List NavInput) : Option Nat :=
  inputs.foldl (navStep N) cursor

/-- Replace the cursor inside the nested `App` state. -/
def App.withCursor (a : App) (c : Option Nat) : App :=
  { a with function_list := { a.function_list with state := ⟨c⟩ } }

/-- Embedding of `App::select_none`: `self.function_list.state.select(None)`. -/
def App.select_none (a : App) : App :=
  a.withCursor none

/-- Embedding of `App::select_next` (delegates to `ListState::select_next`,
modelled from the spec via `navStep`). -/
def App.select_next (a : App) : App :=
  a.withCursor (navStep a.catalog_len a.function_list.state.selected .next)

/-- Embedding of `App::select_previous` (delegates to
`ListState::select_previous`, modelled from the spec via `navStep`). -/
def App.select_previous (a : App) : App :=
  a.withCursor (navStep a.catalog_len a.function_list.state.selected .previous)

/-- Embedding of `App::select_first` (delegates to `ListState::select_first`,
modelled from the spec via `navStep`). -/
def App.select_first (a : App) : App :=
  a.withCursor (navStep a.catalog_len a.function_list.state.selected .first)

/-- Embedding of `App::select_last` (delegates to `ListState::select_last`,
modelled from the spec via `navStep`). -/
def App.select_last (a : App) : App :=
  a.withCursor (navStep a.catalog_len a.function_list.state.selected .last)

/-- The key codes the program distinguishes (crossterm `KeyCode`): character
keys and the named keys matched in `App::handle_key`; `Other` stands for every
remaining key code. -/
inductive KeyCode where
  | Char (c : Char)
  | Esc
  | Left
  | Down
  | Up
  | Home
  | End
  | Other
deriving DecidableEq, Repr

/-- crossterm `KeyEventKind`. -/
inductive KeyEventKind where
  | Press
  | Release
  | Repeat
deriving DecidableEq, Repr

/-- crossterm `KeyEvent`, restricted to the fields the program reads. -/
structure KeyEvent where
  code : KeyCode
  kind : KeyEventKind
deriving DecidableEq, Repr

/-- Embedding of `App::handle_key` (`src/main.rs` lines 100-113): ignore
everything but key presses; `q`/Esc set `should_exit`; `h`/Left deselect;
`j`/Down next; `k`/Up previous; `g`/Home first; `G`/End last; all other key
codes do nothing. -/
def App.handle_key (a : App) (key : KeyEvent) : App :=
  if key.kind ≠ KeyEventKind.Press then a
  else
    match key.code with
    | .Char 'q' | .Esc => { a with should_exit := true }
    | .Char 'h' | .Left => a.select_none
    | .Char 'j' | .Down => a.select_next
    | .Char 'k' | .Up => a.select_previous
    | .Char 'g' | .Home => a.select_first
    | .Char 'G' | .End => a.select_last
    | _ => a

/-- Embedding of the event loop `App::run` over a finite stream of key events:
`while !self.should_exit { draw; handle_key(read()) }`.  Rendering does not
alter the modelled state; the loop consumes events until the exit flag is set
(or the modelled stream ends). -/
def App.run : App → List KeyEvent → App
  | a, [] => a
  | a, k :: ks => if a.should_exit then a else App.run (a.handle_key k) ks

/-! ## Startup report and `main` (`src/main.rs` lines 42-75) -/

/-- The lines printed by `main` before the interactive loop: one `println!`
with `"Found [{}] lambda functions:"` applied to the count, then one
`println!` per function name. -/
def startup_report (functions : List Function) : List String :=
  ("Found [" ++ toString functions.length ++ "] lambda functions:")
    :: functions.map Function.name

/-- The exact bytes written to standard output by the startup report
(`println!` terminates each line with a newline). -/
def startup_stdout (functions : List Function) : String :=
  String.join ((startup_report functions).map (fun line => line ++ "\n"))

/-- Outcome of `main` up to entering the interactive loop. -/
inductive MainOutcome where
  | aborted
  | ran (stdout_lines : List String) (app : App)
  | hung
deriving DecidableEq, Repr

/-- Embedding of `main` over a modelled page-response sequence: fetch all
functions (a panic aborts the process before any output or UI), print the
startup report, and construct the initial `App` with the loaded catalog, no
selection (`ListState::default()`), and the exit flag clear. -/
def main_model (responses : List PageResponse) : MainOutcome :=
  match get_all_functions responses with
  | .ok fns => .ran (startup_report fns) ⟨⟨some fns, ⟨none⟩⟩, false⟩
  | .panicked => .aborted
  | .outOfResponses => .hung

/-! ## Render projection (`src/main.rs` lines 135-253) -/

/-- The color constants used by the renderer (tailwind palette values). -/
inductive Color where
  | slate_c950
  | slate_c900
  | slate_c800
  | slate_c200
  | slate_c100
  | blue_c800
deriving DecidableEq, Repr

/-- Embedding of `const NORMAL_ROW_BG: Color = SLATE.c950`. -/
def NORMAL_ROW_BG : Color := .slate_c950

/-- Embedding of `const ALT_ROW_BG_COLOR: Color = SLATE.c900`. -/
def ALT_ROW_BG_COLOR : Color := .slate_c900

/-- Embedding of `const fn alternate_colors(i: usize) -> Color`. -/
def alternate_colors (i : Nat) : Color :=
  if i % 2 = 0 then NORMAL_ROW_BG else ALT_ROW_BG_COLOR

/-- One rendered list row: its text, its background band, and whether it is
the highlighted (selected) row that carries the `">"` marker. -/
structure ListRow where
  text : String
  bg : Color
  highlighted : Bool
deriving DecidableEq, Repr

/-- Embedding of `App::render_list`: `functions.clone().unwrap()` (a `None`
catalog panics, modelled as `none`), each entry styled with
`alternate_colors i`, and the row at the selected index highlighted (the
highlight application lives in ratatui's `List` widget, modelled from the
spec's §4.3 list contract). -/
def render_list (a : App) : Option (List ListRow) :=
  match a.function_list.functions with
  | none => none
  | some fns =>
    some (fns.enum.map (fun p =>
      { text := p.2.name
        bg := alternate_colors p.1
        highlighted := a.function_list.state.selected = some p.1 }))

/-- Embedding of `App::render_selected_item` (`src/main.rs` lines 203-211):
the detail text is the selected function's name when an index is selected and
the catalog is loaded (`functions[i]`, an out-of-bounds index panics, modelled
as `none`); the literal `"No functions available..."` when an index is
selected but no catalog is loaded; and the literal `"Nothing selected..."`
when no index is selected. -/
def render_selected_item (a : App) : Option String :=
  match a.function_list.state.selected with
  | some i =>
    match a.function_list.functions with
    | none => some "No functions available..."
    | some functions => (functions[i]?).map Function.name
  | none => some "Nothing selected..."

/-- Embedding of `App::render_header`: a static title paragraph. -/
def render_header : String := "AWS Logs TUI"

/-- Embedding of `App::render_footer`: a static help paragraph. -/
def render_footer : String :=
  "Use ↓↑ to move, ← to unselect, → to change status, g/G to go top/bottom."

/-- The full drawable output of one render pass. -/
structure RenderOutput where
  header : String
  footer : String
  list : List ListRow
  detail : String
deriving DecidableEq, Repr

/-- Embedding of `impl Widget for &mut App`: one render pass produces the
header, footer, list and detail regions (`none` models a panic inside the
pass). -/
def App.render (a : App) : Option RenderOutput :=
  match render_list a, render_selected_item a with
  | some rows, some detail => some ⟨render_header, render_footer, rows, detail⟩
  | _, _ => none

/-- Whether the cursor value is valid for a catalog of length N: absent, or a
zero-based index strictly below N. -/
def cursor_in_bounds (N : Nat) : Option Nat → Prop
  | none => True
  | some i => i < N

/-- The key codes `App::handle_key` recognizes: `q`, `h`, `j`, `k`, `g`, `G`,
Esc, Left, Down, Up, Home, End. -/
def recognized : KeyCode → Bool
  | .Char ch =>
    ch == 'q' || ch == 'h' || ch == 'j' || ch == 'k' || ch == 'g' || ch == 'G'
  | .Other => false
  | _ => true

/-- Whether a key event is a press of `q` or Esc — the only events that set
the exit flag. -/
def is_exit_press (k : KeyEvent) : Bool :=
  k.kind == KeyEventKind.Press
    && (k.code == KeyCode.Char 'q' || k.code == KeyCode.Esc)

/-! ## Helper lemmas -/

/-- Any run of successful pages that all carry a continuation token is passed
through by the retrieval loop; whatever follows decides the outcome.  Here:
a failing request right after such a run makes the loop panic. -/
theorem loop_panicked_of_leading_oks (pre post : List PageResponse)
    (acc : List Function)
    (hpre : ∀ r ∈ pre, ∃ p, r = PageResponse.ok p ∧ p.next_marker.isSome) :
    get_all_functions_loop (pre ++ PageResponse.err :: post) acc
      = FetchResult.panicked := by
  induction pre generalizing acc with
  | nil => rfl
  | cons r rs ih =>
    obtain ⟨p, rfl, hp⟩ := hpre r (List.mem_cons_self r rs)
    obtain ⟨t, ht⟩ := Option.isSome_iff_exists.mp hp
    simp only [List.cons_append, get_all_functions_loop, ht]
    exact ih _ (fun r hr => hpre r (List.mem_cons_of_mem _ hr))

/-- Running the retrieval loop over successful pages whose every non-final
page carries a continuation token and whose final page carries none collects
exactly the concatenation of the pages' named entries, in page order. -/
theorem loop_ok_of_pages (init : List Page) (lastp : Page) (acc : List Function)
    (hinit : ∀ p ∈ init, p.next_marker.isSome)
    (hlast : lastp.next_marker = none) :
    get_all_functions_loop ((init ++ [lastp]).map PageResponse.ok) acc
      = FetchResult.ok (acc ++ ((init ++ [lastp]).map page_functions).flatten) := by
  induction init generalizing acc with
  | nil =>
    simp [get_all_functions_loop, hlast]
  | cons p ps ih =>
    have hp := hinit p (List.mem_cons_self p ps)
    obtain ⟨t, ht⟩ := Option.isSome_iff_exists.mp hp
    simp only [List.cons_append, List.map_cons, get_all_functions_loop, ht,
      List.flatten_cons, List.append_eq]
    rw [ih _ (fun q hq => hinit q (List.mem_cons_of_mem _ hq))]
    simp [List.append_assoc]

/-- If some successful response in the sequence carries no continuation
token, the retrieval loop never runs off the end of the sequence. -/
theorem loop_ne_outOfResponses (responses : List PageResponse)
    (h : ∃ p, PageResponse.ok p ∈ responses ∧ p.next_marker = none) :
    ∀ acc, get_all_functions_loop responses acc ≠ FetchResult.outOfResponses := by
  induction responses with
  | nil =>
    obtain ⟨p, hmem, _⟩ := h
    exact absurd hmem (List.not_mem_nil _)
  | cons r rest ih =>
    intro acc
    obtain ⟨p, hmem, hnone⟩ := h
    cases r with
    | err => simp [get_all_functions_loop]
    | ok q =>
      cases hq : q.next_marker with
      | none => simp [get_all_functions_loop, hq]
      | some t =>
        rcases List.mem_cons.mp hmem with heq | hrest
        · cases heq
          exact absurd hq (by rw [hnone]; exact fun h => Option.noConfusion h)
        · simp only [get_all_functions_loop, hq]
          exact ih ⟨p, hrest, hnone⟩ _

/-- The sort comparison is transitive. -/
theorem function_le_trans :
    ∀ a b c : Function, function_le a b = true → function_le b c = true →
      function_le a c = true := by
  intro a b c hab hbc
  simp only [function_le, decide_eq_true_eq] at *
  exact le_trans hab hbc

/-- The sort comparison is total. -/
theorem function_le_total :
    ∀ a b : Function, (function_le a b || function_le b a) = true := by
  intro a b
  simp only [function_le, Bool.or_eq_true, decide_eq_true_eq]
  exact le_total _ _

/-- One navigation step keeps the cursor in bounds. -/
theorem navStep_in_bounds (N : Nat) (c : Option Nat) (m : NavInput)
    (h : cursor_in_bounds N c) : cursor_in_bounds N (navStep N c m) := by
  by_cases h0 : N = 0
  · subst h0
    cases m <;> cases c <;> simp [navStep, cursor_in_bounds]
  · cases m <;> cases c <;>
      simp only [navStep, h0, if_false, cursor_in_bounds] at h ⊢ <;>
      omega

/-- Iterated navigation keeps the cursor in bounds. -/
theorem navRun_in_bounds (inputs : List NavInput) (N : Nat) (c : Option Nat)
    (h : cursor_in_bounds N c) : cursor_in_bounds N (navRun N c inputs) := by
  induction inputs generalizing c with
  | nil => exact h
  | cons m ms ih => exact ih _ (navStep_in_bounds N c m h)

/-- With an empty catalog, every single navigation step yields no cursor. -/
theorem navStep_zero (c : Option Nat) (m : NavInput) : navStep 0 c m = none := by
  cases m <;> cases c <;> simp [navStep]

/-- With an empty catalog, iterated navigation from no cursor stays at no
cursor. -/
theorem navRun_zero (inputs : List NavInput) :
    navRun 0 none inputs = none := by
  induction inputs with
  | nil => rfl
  | cons m ms ih =>
    show navRun 0 (navStep 0 none m) ms = none
    rw [navStep_zero]
    exact ih

/-! ## Claim theorems -/

/-- Claim C1: if any page request issued by the aggregator fails, the whole
fetch aborts — the `.expect` panic terminates the process with a non-zero
exit code and a diagnostic on stderr before any report is printed or the
interactive loop is entered; no partial catalog is returned and no retry is
attempted (the responses after the failure are never consumed). -/
theorem c1_page_failure_aborts (pre post : List PageResponse)
    (hpre : ∀ r ∈ pre, ∃ p, r = PageResponse.ok p ∧ p.next_marker.isSome) :
    main_model (pre ++ PageResponse.err :: post) = MainOutcome.aborted := by
  unfold main_model get_all_functions
  rw [loop_panicked_of_leading_oks pre post [] hpre]

/-- Witness for C1: a first page with a token, then a failing request. -/
theorem c1_witness :
    main_model ([PageResponse.ok ⟨[some "a"], some "T1"⟩]
      ++ PageResponse.err :: []) = MainOutcome.aborted :=
  c1_page_failure_aborts _ _ (by
    intro r hr
    rw [List.mem_singleton] at hr
    exact ⟨_, hr, rfl⟩)

/-- Claim C2: for every page sequence whose non-final pages all carry a
continuation token and whose final page carries none, with every page holding
at most 50 entries, the fetch succeeds with exactly the multiset of named
entries of all pages — the result is a permutation of their concatenation,
its length is the sum of the per-page named-entry counts, and it is sorted
ascending by name under case-sensitive ordinal comparison.  (Stability of the
sort is unobservable here: entries with equal names are equal values.) -/
theorem c2_fetch_complete_sorted (init : List Page) (lastp : Page)
    (hinit : ∀ p ∈ init, p.next_marker.isSome)
    (hlast : lastp.next_marker = none)
    (hsize : ∀ p ∈ init ++ [lastp], p.functions.length ≤ PAGINATION_SIZE) :
    ∃ L, get_all_functions ((init ++ [lastp]).map PageResponse.ok)
        = FetchResult.ok L
      ∧ L.Perm ((init ++ [lastp]).map page_functions).flatten
      ∧ L.length = ((init ++ [lastp]).map (fun p => (page_functions p).length)).sum
      ∧ L.Pairwise (fun a b => a.name.data ≤ b.name.data) := by
  refine ⟨(((init ++ [lastp]).map page_functions).flatten).mergeSort function_le,
    ?_, ?_, ?_, ?_⟩
  · unfold get_all_functions
    rw [loop_ok_of_pages init lastp [] hinit hlast]
    simp
  · exact List.mergeSort_perm _ _
  · rw [List.length_mergeSort, List.length_flatten, List.map_map]
    rfl
  · have hs := List.sorted_mergeSort function_le_trans function_le_total
      (((init ++ [lastp]).map page_functions).flatten)
    exact hs.imp (fun h => by
      simpa only [function_le, decide_eq_true_eq] using h)

/-- Witness for C2: pages `[b, a]` (token present) then `[c]` (no token). -/
theorem c2_witness :
    ∃ L, get_all_functions
        (([(⟨[some "b", some "a"], some "T1"⟩ : Page)]
          ++ [(⟨[some "c"], none⟩ : Page)]).map
          PageResponse.ok) = FetchResult.ok L
      ∧ L.Perm (([(⟨[some "b", some "a"], some "T1"⟩ : Page)]
          ++ [(⟨[some "c"], none⟩ : Page)]).map page_functions).flatten
      ∧ L.length = (([(⟨[some "b", some "a"], some "T1"⟩ : Page)]
          ++ [(⟨[some "c"], none⟩ : Page)]).map
            (fun p => (page_functions p).length)).sum
      ∧ L.Pairwise (fun a b => a.name.data ≤ b.name.data) :=
  c2_fetch_complete_sorted [⟨[some "b", some "a"], some "T1"⟩] ⟨[some "c"], none⟩
    (by
      intro p hp
      rw [List.mem_singleton] at hp
      subst hp
      rfl)
    rfl
    (by
      intro p hp
      simp only [List.cons_append, List.nil_append, List.mem_cons,
        List.mem_singleton, List.not_mem_nil, or_false] at hp
      rcases hp with rfl | rfl <;> simp [PAGINATION_SIZE])

/-- Claim C5: the retrieval loop terminates exactly on a token-free page
response, and only then — a successful page with a token continues into the
remaining responses (in particular a page with zero named entries and a token
does not terminate), a token-free page terminates immediately with the
accumulated entries, and whenever some successful response in the sequence
carries no token the loop cannot run out of responses. -/
theorem c5_loop_termination :
    (∀ (p : Page) (t : String) (rest : List PageResponse) (acc : List Function),
      p.next_marker = some t →
      get_all_functions_loop (PageResponse.ok p :: rest) acc
        = get_all_functions_loop rest (acc ++ page_functions p))
    ∧ (∀ (p : Page) (t : String) (rest : List PageResponse) (acc : List Function),
      page_functions p = [] → p.next_marker = some t →
      get_all_functions_loop (PageResponse.ok p :: rest) acc
        = get_all_functions_loop rest acc)
    ∧ (∀ (p : Page) (rest : List PageResponse) (acc : List Function),
      p.next_marker = none →
      get_all_functions_loop (PageResponse.ok p :: rest) acc
        = FetchResult.ok (acc ++ page_functions p))
    ∧ (∀ (responses : List PageResponse) (acc : List Function),
      (∃ p, PageResponse.ok p ∈ responses ∧ p.next_marker = none) →
      get_all_functions_loop responses acc ≠ FetchResult.outOfResponses) := by
  refine ⟨?_, ?_, ?_, ?_⟩
  · intro p t rest acc ht
    simp [get_all_functions_loop, ht]
  · intro p t rest acc hempty ht
    simp [get_all_functions_loop, ht, hempty]
  · intro p rest acc hnone
    simp [get_all_functions_loop, hnone]
  · intro responses acc h
    exact loop_ne_outOfResponses responses h acc

/-- Witness for C5: an empty tokened page continues; a token-free page ends
the loop; a sequence containing a token-free page cannot run dry. -/
theorem c5_witness :
    get_all_functions_loop
        [PageResponse.ok ⟨[], some "T1"⟩, PageResponse.ok ⟨[some "a"], none⟩] []
      = get_all_functions_loop [PageResponse.ok ⟨[some "a"], none⟩] []
    ∧ get_all_functions_loop [PageResponse.ok ⟨[some "a"], none⟩] []
      = FetchResult.ok ([] ++ page_functions ⟨[some "a"], none⟩)
    ∧ get_all_functions_loop
        [PageResponse.ok ⟨[], some "T1"⟩, PageResponse.ok ⟨[some "a"], none⟩] []
      ≠ FetchResult.outOfResponses := by
  refine ⟨?_, ?_, ?_⟩
  · exact c5_loop_termination.2.1 ⟨[], some "T1"⟩ "T1" _ [] rfl rfl
  · exact c5_loop_termination.2.2.1 ⟨[some "a"], none⟩ [] [] rfl
  · exact c5_loop_termination.2.2.2 _ []
      ⟨⟨[some "a"], none⟩, by simp, rfl⟩

/-- Claim C3: starting from no selection, any sequence of navigation
transitions keeps the cursor either absent or a valid index below the catalog
length; with an empty catalog the cursor stays absent throughout.  (Every
intermediate state is itself reached by some input sequence, so the
quantification over sequences covers all times.) -/
theorem c3_cursor_invariant (N : Nat) (inputs : List NavInput) :
    cursor_in_bounds N (navRun N none inputs)
      ∧ navRun 0 none inputs = none :=
  ⟨navRun_in_bounds inputs N none trivial, navRun_zero inputs⟩

/-- Claim C4: with a non-empty catalog the transitions realize exactly the
spec table — next clamps at the last index, previous clamps at zero, first
goes to index 0, last to index N-1, with no wraparound. -/
theorem c4_transition_table (N i : Nat) (hN : 0 < N) (hi : i < N) :
    navStep N (some i) NavInput.next = some (min (i + 1) (N - 1))
    ∧ navStep N none NavInput.next = some 0
    ∧ navStep N (some i) NavInput.previous = some (max (i - 1) 0)
    ∧ navStep N none NavInput.previous = some (N - 1)
    ∧ navStep N (some i) NavInput.first = some 0
    ∧ navStep N none NavInput.first = some 0
    ∧ navStep N (some i) NavInput.last = some (N - 1)
    ∧ navStep N none NavInput.last = some (N - 1)
    ∧ navStep N (some (N - 1)) NavInput.next = some (N - 1)
    ∧ navStep N (some 0) NavInput.previous = some 0 := by
  have h0 : ¬ N = 0 := by omega
  refine ⟨?_, ?_, ?_, ?_, ?_, ?_, ?_, ?_, ?_, ?_⟩ <;>
    simp only [navStep, h0, if_false, Option.some.injEq] <;> omega

/-- Witness for C4 at N = 3, i = 1. -/
theorem c4_witness :
    navStep 3 (some 1) NavInput.next = some (min (1 + 1) (3 - 1))
    ∧ navStep 3 none NavInput.next = some 0
    ∧ navStep 3 (some 1) NavInput.previous = some (max (1 - 1) 0)
    ∧ navStep 3 none NavInput.previous = some (3 - 1)
    ∧ navStep 3 (some 1) NavInput.first = some 0
    ∧ navStep 3 none NavInput.first = some 0
    ∧ navStep 3 (some 1) NavInput.last = some (3 - 1)
    ∧ navStep 3 none NavInput.last = some (3 - 1)
    ∧ navStep 3 (some (3 - 1)) NavInput.next = some (3 - 1)
    ∧ navStep 3 (some 0) NavInput.previous = some 0 :=
  c4_transition_table 3 1 (by decide) (by decide)

/-- Claim C6 (counterexample): the claim says an empty catalog yields a fixed
"no entries" detail literal distinct from the "nothing selected" literal.  In
the code the catalog-absent literal is `"No functions available..."`, but an
empty loaded catalog with no selection yields `"Nothing selected..."` — the
same text as the non-empty no-selection case, not a distinct empty-catalog
literal. -/
theorem c6_counterexample :
    render_selected_item ⟨⟨some [], ⟨none⟩⟩, false⟩ = some "Nothing selected..."
    ∧ render_selected_item ⟨⟨some [⟨"a"⟩], ⟨none⟩⟩, false⟩
        = some "Nothing selected..."
    ∧ "Nothing selected..." ≠ "No functions available..." := by
  refine ⟨rfl, rfl, ?_⟩
  decide

/-- Claim C6 (amended): the detail projection branches on the cursor first
and on presence of the catalog Option second — if the cursor is absent the
detail is the fixed `"Nothing selected..."` literal regardless of the
catalog; if an index is selected and no catalog is loaded it is the fixed
`"No functions available..."` literal; if an index is selected and a catalog
is loaded it is that entry's name; the two fixed literals are distinct.
There is no separate empty-catalog branch. -/
theorem c6_detail_projection (fl : FunctionList) (e : Bool) :
    (fl.state.selected = none →
      render_selected_item ⟨fl, e⟩ = some "Nothing selected...")
    ∧ (∀ i, fl.state.selected = some i → fl.functions = none →
      render_selected_item ⟨fl, e⟩ = some "No functions available...")
    ∧ (∀ i fns, fl.state.selected = some i → fl.functions = some fns →
      ∀ h : i < fns.length,
        render_selected_item ⟨fl, e⟩ = some (fns.get ⟨i, h⟩).name)
    ∧ "Nothing selected..." ≠ "No functions available..." := by
  refine ⟨?_, ?_, ?_, by decide⟩
  · intro hsel
    simp [render_selected_item, hsel]
  · intro i hsel hfns
    simp [render_selected_item, hsel, hfns]
  · intro i fns hsel hfns h
    simp [render_selected_item, hsel, hfns, List.getElem?_eq_getElem h]

/-- Witness for C6 (amended) at a selected, loaded, in-bounds state. -/
theorem c6_witness :
    render_selected_item ⟨⟨some [⟨"a"⟩], ⟨some 0⟩⟩, false⟩
      = some (([(⟨"a"⟩ : Function)]).get ⟨0, by decide⟩).name :=
  (c6_detail_projection ⟨some [⟨"a"⟩], ⟨some 0⟩⟩ false).2.2.1 0 [⟨"a"⟩]
    rfl rfl (by decide)

/-- Claim C7: the render pass is a pure projection of the catalog and the
selection state — in this embedding it performs no I/O by construction, and
its output is byte-identical for identical `(Catalog, SelectionState)`
inputs: it does not depend on any other application state (in particular not
on the exit flag). -/
theorem c7_render_pure (a b : App)
    (hfns : a.function_list.functions = b.function_list.functions)
    (hsel : a.function_list.state.selected = b.function_list.state.selected) :
    a.render = b.render := by
  unfold App.render render_list render_selected_item
  rw [hfns, hsel]

/-- Witness for C7: two states equal up to the exit flag render identically. -/
theorem c7_witness :
    (⟨⟨some [⟨"a"⟩], ⟨some 0⟩⟩, false⟩ : App).render
      = (⟨⟨some [⟨"a"⟩], ⟨some 0⟩⟩, true⟩ : App).render :=
  c7_render_pure _ _ rfl rfl

/-- Claim C8 (counterexample): the startup count line printed by `main` is
`"Found [<N>] lambda functions:"`, not the claimed byte-for-byte
`"Found [<N>] functions:"`. -/
theorem c8_counterexample :
    startup_report [] = ["Found [0] lambda functions:"]
    ∧ "Found [0] lambda functions:" ≠ "Found [0] functions:" := by
  refine ⟨rfl, ?_⟩
  decide

/-- Claim C8 (amended): for every retrieved catalog of N functions the
startup report on standard output is exactly the line
`"Found [<N>] lambda functions:"` followed by one function name per line. -/
theorem c8_startup_report (fns : List Function) :
    (startup_report fns).head?
      = some ("Found [" ++ toString fns.length ++ "] lambda functions:")
    ∧ (startup_report fns).length = fns.length + 1
    ∧ (∀ i, ∀ h : i < fns.length,
        (startup_report fns)[i + 1]? = some (fns.get ⟨i, h⟩).name)
    ∧ startup_stdout fns
      = String.join ((startup_report fns).map (fun line => line ++ "\n")) := by
  refine ⟨rfl, ?_, ?_, rfl⟩
  · simp [startup_report]
  · intro i h
    simp [startup_report, List.getElem?_map, List.getElem?_eq_getElem h]

/-- Witness for C8 (amended) on a two-entry catalog. -/
theorem c8_witness :
    (startup_report [⟨"a"⟩, ⟨"b"⟩]).head?
      = some ("Found [" ++ toString ([(⟨"a"⟩ : Function), ⟨"b"⟩]).length
          ++ "] lambda functions:")
    ∧ (startup_report [⟨"a"⟩, ⟨"b"⟩]).length
        = ([(⟨"a"⟩ : Function), ⟨"b"⟩]).length + 1
    ∧ (∀ i, ∀ h : i < ([(⟨"a"⟩ : Function), ⟨"b"⟩]).length,
        (startup_report [⟨"a"⟩, ⟨"b"⟩])[i + 1]?
          = some (([(⟨"a"⟩ : Function), ⟨"b"⟩]).get ⟨i, h⟩).name)
    ∧ startup_stdout [⟨"a"⟩, ⟨"b"⟩]
      = String.join ((startup_report [⟨"a"⟩, ⟨"b"⟩]).map (fun line => line ++ "\n")) :=
  c8_startup_report [⟨"a"⟩, ⟨"b"⟩]

/-- Claim C9: every event that is not a key press, and every key press whose
code is not one of the recognized bindings, leaves the whole application
state unchanged — cursor and exit flag included. -/
theorem c9_unrecognized_identity (a : App) (key : KeyEvent)
    (h : key.kind ≠ KeyEventKind.Press ∨ recognized key.code = false) :
    a.handle_key key = a := by
  obtain ⟨code, kind⟩ := key
  rcases h with h | h
  · simp [App.handle_key, h]
  · cases kind with
    | Release => rfl
    | Repeat => rfl
    | Press =>
      cases code with
      | Char ch =>
        simp only [recognized, Bool.or_eq_false_iff, beq_eq_false_iff_ne,
          ne_eq] at h
        obtain ⟨⟨⟨⟨⟨hq, hh⟩, hj⟩, hk⟩, hg⟩, hG⟩ := h
        unfold App.handle_key
        rw [if_neg (by simp)]
        split <;> simp_all
      | Other =>
        rfl
      | Esc => simp [recognized] at h
      | Left => simp [recognized] at h
      | Down => simp [recognized] at h
      | Up => simp [recognized] at h
      | Home => simp [recognized] at h
      | End => simp [recognized] at h

/-- Witness for C9: a key release and an unbound character press. -/
theorem c9_witness :
    App.handle_key ⟨⟨some [⟨"a"⟩], ⟨none⟩⟩, false⟩ ⟨KeyCode.Char 'x', KeyEventKind.Press⟩
      = (⟨⟨some [⟨"a"⟩], ⟨none⟩⟩, false⟩ : App) :=
  c9_unrecognized_identity _ _ (Or.inr (by decide))

/-- The exit flag after one `handle_key` step: it stays set once set, and is
newly set exactly by a press of `q` or Esc. -/
theorem handle_key_should_exit (a : App) (k : KeyEvent) :
    (a.handle_key k).should_exit = (a.should_exit || is_exit_press k) := by
  obtain ⟨code, kind⟩ := k
  cases kind with
  | Release => simp [App.handle_key, is_exit_press]
  | Repeat => simp [App.handle_key, is_exit_press]
  | Press =>
    cases code with
    | Char ch =>
      unfold App.handle_key
      rw [if_neg (by simp)]
      split <;>
        simp_all [is_exit_press, App.select_none, App.select_next,
          App.select_previous, App.select_first, App.select_last,
          App.withCursor]
    | Esc =>
      simp [App.handle_key, is_exit_press]
    | Left =>
      simp [App.handle_key, is_exit_press, App.select_none, App.withCursor]
    | Down =>
      simp [App.handle_key, is_exit_press, App.select_next, App.withCursor]
    | Up =>
      simp [App.handle_key, is_exit_press, App.select_previous, App.withCursor]
    | Home =>
      simp [App.handle_key, is_exit_press, App.select_first, App.withCursor]
    | End =>
      simp [App.handle_key, is_exit_press, App.select_last, App.withCursor]
    | Other =>
      simp [App.handle_key, is_exit_press]

/-- The exit flag after the event loop consumes a finite event stream: it
ends set exactly when it started set or some event in the stream is a press
of `q` or Esc. -/
theorem run_should_exit (a : App) (ks : List KeyEvent) :
    (App.run a ks).should_exit = (a.should_exit || ks.any is_exit_press) := by
  induction ks generalizing a with
  | nil => simp [App.run]
  | cons k ks ih =>
    by_cases h : a.should_exit = true
    · simp [App.run, h]
    · simp only [Bool.not_eq_true] at h
      simp only [App.run, h, Bool.false_eq_true, if_false, List.any_cons]
      rw [ih, handle_key_should_exit]
      simp [h, Bool.or_assoc]

/-- Claim C10: the key-to-transition mapping is exactly the source match —
`q`/Esc set the exit flag, `h`/Left deselect, `j`/Down step next, `k`/Up step
previous, `g`/Home go first, `G`/End go last — the exit flag is set by
exactly the `q`/Esc presses, and the event loop ends with the exit flag set
iff it started set or some consumed event was a `q`/Esc press, so no other
input ever ends the session. -/
theorem c10_key_bindings (a : App) :
    App.handle_key a ⟨KeyCode.Char 'q', KeyEventKind.Press⟩
        = { a with should_exit := true }
    ∧ App.handle_key a ⟨KeyCode.Esc, KeyEventKind.Press⟩
        = { a with should_exit := true }
    ∧ App.handle_key a ⟨KeyCode.Char 'h', KeyEventKind.Press⟩ = a.select_none
    ∧ App.handle_key a ⟨KeyCode.Left, KeyEventKind.Press⟩ = a.select_none
    ∧ App.handle_key a ⟨KeyCode.Char 'j', KeyEventKind.Press⟩ = a.select_next
    ∧ App.handle_key a ⟨KeyCode.Down, KeyEventKind.Press⟩ = a.select_next
    ∧ App.handle_key a ⟨KeyCode.Char 'k', KeyEventKind.Press⟩ = a.select_previous
    ∧ App.handle_key a ⟨KeyCode.Up, KeyEventKind.Press⟩ = a.select_previous
    ∧ App.handle_key a ⟨KeyCode.Char 'g', KeyEventKind.Press⟩ = a.select_first
    ∧ App.handle_key a ⟨KeyCode.Home, KeyEventKind.Press⟩ = a.select_first
    ∧ App.handle_key a ⟨KeyCode.Char 'G', KeyEventKind.Press⟩ = a.select_last
    ∧ App.handle_key a ⟨KeyCode.End, KeyEventKind.Press⟩ = a.select_last
    ∧ (∀ k : KeyEvent, (a.handle_key k).should_exit
        = (a.should_exit || is_exit_press k))
    ∧ (∀ ks : List KeyEvent, (App.run a ks).should_exit
        = (a.should_exit || ks.any is_exit_press)) :=
  ⟨rfl, rfl, rfl, rfl, rfl, rfl, rfl, rfl, rfl, rfl, rfl, rfl,
    handle_key_should_exit a, run_should_exit a⟩

end AwsLogsTui
